import Mathlib

/-!
Verification development for the `if-dl` web GUI server (`src/web/server.ts`).

The embedding below follows the source file closely:

* the session orchestration (`POST /api/download`, its `.then`/`.catch`
  continuations, `POST /api/download/:id/cancel`, `GET /api/downloads`) is
  modelled as a small-step transition system over an explicit server state;
  each HTTP handler body and each promise continuation contains no `await`,
  so under JavaScript run-to-completion semantics it executes atomically,
  and is therefore one step of the relation;
* `Date.now().toString()` is modelled as `Nat.repr` of a millisecond
  timestamp (both render a natural number in decimal);
* the path validator (`POST /api/validate-path`) is a pure function of the
  probed filesystem facts;
* the `WebLogger` adapter and `broadcast` are pure functions over a model
  of JavaScript values, with `util.inspect` and `JSON.stringify` modelled
  by their documented ECMAScript/Node semantics.
-/

namespace IfDl

/-! ### Decimal rendering of `Date.now()`

`downloadId = Date.now().toString()` (server.ts line 94) renders a
millisecond timestamp in decimal.  We model it with `Nat.repr` and prove
that the rendering is injective, so identifiers collide exactly when the
timestamps collide. -/

/-- Big-endian decimal digit list of `n` (at least one digit). -/
def digitsAux10 (n : Nat) : List Char :=
  if h : n / 10 = 0 then [Nat.digitChar (n % 10)]
  else digitsAux10 (n / 10) ++ [Nat.digitChar (n % 10)]
decreasing_by
  exact Nat.div_lt_self (Nat.pos_of_ne_zero (fun h0 => h (by simp [h0]))) (by decide)

/-- Numeric value of a decimal digit character. -/
def charDigitVal (c : Char) : Nat := c.toNat - 48

/-- Evaluate a big-endian decimal digit list. -/
def decodeDigits (cs : List Char) : Nat :=
  cs.foldl (fun a c => 10 * a + charDigitVal c) 0

/-! ### Session orchestration (server.ts lines 24, 86–185)

State of the server process: `activeDownloads` is the `Map` of line 24
(an association list with the key bound at most once, as `Map.set` /
`Map.delete` maintain); `sessions` records every session ever created,
carrying the `abortController.signal.aborted` flag and, as ghost
instrumentation for the specification, whether its promise has settled
and its lifecycle state; `events` is the sequence of `broadcast` calls
made by the orchestration handlers.  Each handler body / continuation is
free of `await`, so JavaScript run-to-completion makes it one atomic
step. -/

/-- Wire event kinds broadcast by the orchestration handlers. -/
inductive EvKind where
  | complete
  | error
  | cancelled
deriving DecidableEq

/-- One `broadcast` call made by an orchestration handler. -/
structure Ev where
  kind : EvKind
  downloadId : String
  message : String
deriving DecidableEq

/-- Spec §4.3 lifecycle state (ghost: the code keeps it implicit).  The
code registers a session and starts its operation in the same atomic
handler, so `Pending` is not separately observable; `running` covers it. -/
inductive SpecStatus where
  | running
  | completed
  | failed
  | cancelled
deriving DecidableEq

/-- Terminal lifecycle states (spec glossary). -/
def SpecStatus.isTerminal : SpecStatus → Bool
  | .running => false
  | _ => true

/-- One download session: `sid` is ghost object identity (creation order),
`id` the `downloadId` string of line 94, `aborted` the
`abortController.signal.aborted` flag, `settled` whether `start()`'s
promise has settled, `st` the ghost lifecycle state. -/
structure Sess where
  sid : Nat
  id : String
  aborted : Bool
  settled : Bool
  st : SpecStatus
deriving DecidableEq

/-- The server state. -/
structure SrvState where
  nextSid : Nat
  sessions : List Sess
  activeDownloads : List (String × Nat)
  events : List Ev
deriving DecidableEq

/-- `Map.get` on `activeDownloads`. -/
def lookupActive : List (String × Nat) → String → Option Nat
  | [], _ => none
  | p :: rest, k => if p.1 = k then some p.2 else lookupActive rest k

/-- `Map.delete` on `activeDownloads`. -/
def eraseActive : List (String × Nat) → String → List (String × Nat)
  | [], _ => []
  | p :: rest, k => if p.1 = k then eraseActive rest k else p :: eraseActive rest k

/-- `Map.set` on `activeDownloads` (bind the key to exactly one value). -/
def setActive (l : List (String × Nat)) (k : String) (v : Nat) : List (String × Nat) :=
  (k, v) :: eraseActive l k

/-- Find a session by its ghost identity. -/
def findSess (l : List Sess) (sid : Nat) : Option Sess :=
  l.find? (fun s => s.sid == sid)

/-- Update the session with ghost identity `sid`. -/
def updSess (l : List Sess) (sid : Nat) (f : Sess → Sess) : List Sess :=
  l.map (fun s => if s.sid = sid then f s else s)

/-- `Date.now().toString()` (server.ts line 94) at millisecond timestamp `t`. -/
def downloadIdOf (t : Nat) : String := Nat.repr t

/-- `POST /api/download` handler body (server.ts lines 93–152) at
timestamp `t`: generate `downloadId`, build the downloader with a fresh
`AbortController`, store it in `activeDownloads`, start the operation.
The `.then`/`.catch` continuations are separate steps. -/
def createOp (s : SrvState) (t : Nat) : SrvState :=
  { nextSid := s.nextSid + 1
    sessions := ⟨s.nextSid, downloadIdOf t, false, false, .running⟩ :: s.sessions
    activeDownloads := setActive s.activeDownloads (downloadIdOf t) s.nextSid
    events := s.events }

/-- `.then` continuation (server.ts lines 129–136): broadcast `complete`,
then `activeDownloads.delete(downloadId)` — one atomic block. -/
def thenContOp (s : SrvState) (sid : Nat) : SrvState :=
  match findSess s.sessions sid with
  | none => s
  | some sess =>
    { s with
      sessions := updSess s.sessions sid (fun x =>
        { x with settled := true
                 st := if x.st = .running then .completed else x.st })
      activeDownloads := eraseActive s.activeDownloads sess.id
      events := s.events ++ [⟨.complete, sess.id, "Download completed successfully"⟩] }

/-- `.catch` continuation (server.ts lines 137–146): broadcast `error`
only when `!abortController.signal.aborted`, then delete — one atomic
block. -/
def catchContOp (s : SrvState) (sid : Nat) (errMsg : String) : SrvState :=
  match findSess s.sessions sid with
  | none => s
  | some sess =>
    { s with
      sessions := updSess s.sessions sid (fun x =>
        { x with settled := true
                 st := if x.st = .running then .failed else x.st })
      activeDownloads := eraseActive s.activeDownloads sess.id
      events := s.events ++ (if sess.aborted then [] else [⟨.error, sess.id, errMsg⟩]) }

/-- `POST /api/download/:id/cancel` handler (server.ts lines 162–180):
look up; on miss answer 404 with no broadcast; on hit abort the
controller, delete the entry, broadcast `cancelled`, answer success. -/
def cancelOp (s : SrvState) (id : String) : SrvState × Bool :=
  match lookupActive s.activeDownloads id with
  | none => (s, false)
  | some sid =>
    ({ s with
        sessions := updSess s.sessions sid
          (fun x => { x with aborted := true, st := .cancelled })
        activeDownloads := eraseActive s.activeDownloads id
        events := s.events ++ [⟨.cancelled, id, "Download cancelled"⟩] }, true)

/-- `GET /api/downloads` (server.ts lines 182–185): the identifiers in
`activeDownloads`. -/
def listIds (s : SrvState) : List String := s.activeDownloads.map (·.1)

/-- Server state at process start. -/
def initState : SrvState := ⟨0, [], [], []⟩

/-- Atomic steps of the server: a create request at some timestamp, a
settling continuation of an unsettled session, or a cancel request. -/
inductive Step : SrvState → SrvState → Prop where
  | create (s : SrvState) (t : Nat) : Step s (createOp s t)
  | thenCont (s : SrvState) (sid : Nat) (sess : Sess)
      (h : findSess s.sessions sid = some sess) (hs : sess.settled = false) :
      Step s (thenContOp s sid)
  | catchCont (s : SrvState) (sid : Nat) (sess : Sess) (errMsg : String)
      (h : findSess s.sessions sid = some sess) (hs : sess.settled = false) :
      Step s (catchContOp s sid errMsg)
  | cancel (s : SrvState) (id : String) : Step s (cancelOp s id).1

/-- States reachable in one process lifetime. -/
inductive Reach : SrvState → Prop where
  | init : Reach initState
  | step {s s' : SrvState} : Reach s → Step s s' → Reach s'

/-! ### Path validator (server.ts lines 203–265)

The handler probes the filesystem with `fs.existsSync`, `fs.statSync`
and `fs.accessSync(…, W_OK)`.  We model the filesystem as a finite map
from path strings to entries carrying their kind and whether a W_OK
probe succeeds, and `path.parse(dirPath).dir` as the prefix before the
last separator (POSIX, non-root paths). -/

/-- Kind of a filesystem node, as reported by `statSync().isDirectory()`. -/
inductive FType where
  | file
  | dir
deriving DecidableEq

/-- One filesystem node: its kind and whether `accessSync(p, W_OK)` succeeds. -/
structure FSEntry where
  ftype : FType
  writable : Bool
deriving DecidableEq

/-- The probed filesystem: finite map from paths to nodes. -/
def FS : Type := List (String × FSEntry)

/-- `fs.existsSync` / `fs.statSync` combined probe. -/
def fsLookup : FS → String → Option FSEntry
  | [], _ => none
  | p :: rest, k => if p.1 = k then some p.2 else fsLookup rest k

/-- Split a character list at every `/` (like `splitOn "/"`). -/
def splitSlash : List Char → List (List Char)
  | [] => [[]]
  | c :: rest =>
    if c = '/' then [] :: splitSlash rest
    else
      match splitSlash rest with
      | [] => [[c]]
      | g :: gs => (c :: g) :: gs

/-- Join component character lists with `/`. -/
def joinSlash : List (List Char) → List Char
  | [] => []
  | [g] => g
  | g :: gs => g ++ '/' :: joinSlash gs

/-- `path.parse(dirPath).dir`: drop the last `/`-separated component
(POSIX, non-root paths). -/
def parentOf (p : String) : String :=
  ⟨joinSlash (splitSlash p.data).dropLast⟩

/-- The JSON body answered by `POST /api/validate-path` (the source field
named `exists` is rendered here as `pathExists`; `exists` is reserved in
Lean). -/
structure ValidateResult where
  valid : Bool
  pathExists : Bool
  isDirectory : Bool
  writable : Bool
  parentExists : Bool
  parentPath : String
  message : String
deriving DecidableEq

/-- The parent probe (server.ts lines 217–221):
`fs.existsSync(parentPath) && fs.statSync(parentPath).isDirectory()`. -/
def parentExistsOf (fs : FS) (dirPath : String) : Bool :=
  match fsLookup fs (parentOf dirPath) with
  | some e => e.ftype = FType.dir
  | none => false

/-- `POST /api/validate-path` handler body (server.ts lines 210–258). -/
def validatePath (fs : FS) (dirPath : String) : ValidateResult :=
  let parentPath := parentOf dirPath
  let parentExists := parentExistsOf fs dirPath
  match fsLookup fs dirPath with
  | some e =>
    let isDirectory := e.ftype = FType.dir
    let writable := e.writable
    { valid := isDirectory && writable
      pathExists := true
      isDirectory := isDirectory
      writable := writable
      parentExists := parentExists
      parentPath := parentPath
      message :=
        if isDirectory then
          if writable then "Directory is valid and writable"
          else "Directory exists but is not writable"
        else "Path exists but is not a directory" }
  | none =>
    { valid := parentExists
      pathExists := false
      isDirectory := false
      writable := parentExists
      parentExists := parentExists
      parentPath := parentPath
      message :=
        if parentExists then "Directory will be created"
        else "Parent directory does not exist" }

/-! ### Log adapter and event broadcast (server.ts lines 36–83)

`WebLogger.log` normalizes each message part and hands the payload to
`broadcast`, which runs `JSON.stringify` and sends the text to every
socket whose `readyState` is `OPEN` (1).  JavaScript values are modelled
by `JsVal`; `util.inspect(m, depth := 3)` by a depth-bounded renderer
that cuts nesting beyond the configured depth (as Node does, rendering
`[Object]`); `JSON.stringify` by a predicate telling whether it throws
(it throws a `TypeError` on `BigInt` values, per ECMAScript; `undefined`
properties are skipped, `undefined` array elements render as `null`, and
an `Error` instance has no enumerable own properties, so it renders as
an empty object without traversal). -/

/-- Model of JavaScript runtime values as seen by the logger. -/
inductive JsVal where
  | vstr : String → JsVal
  | vnum : Int → JsVal
  | vbool : Bool → JsVal
  | vnull : JsVal
  | vundef : JsVal
  | vbig : Int → JsVal
  | verr : String → String → Option String → Option JsVal → JsVal
  | vobj : List (String × JsVal) → JsVal
  | varr : List JsVal → JsVal

/-- `typeof m === 'object' && m !== null` (server.ts line 59). -/
def isObjectNonNull : JsVal → Bool
  | .verr _ _ _ _ => true
  | .vobj _ => true
  | .varr _ => true
  | _ => false

/-- Values the `WebLogger.log` mapper passes through unchanged (its
`else` branch: primitives, `undefined` and `null`). -/
def isPassThrough (v : JsVal) : Bool := !(isObjectNonNull v)

/-- The `depth` option given to `util.inspect` (server.ts line 61). -/
def inspectDepth : Nat := 3

/-- Depth-bounded rendering: `inspect (d+1) v` expands object/array
nesting `d` levels below the top; deeper nodes render as `[Object]` /
`[Array]`, as `util.inspect` does past its `depth` option. -/
def inspect : Nat → JsVal → String
  | _, .vstr s => "'" ++ s ++ "'"
  | _, .vnum n => toString n
  | _, .vbool b => cond b "true" "false"
  | _, .vnull => "null"
  | _, .vundef => "undefined"
  | _, .vbig n => toString n ++ "n"
  | _, .verr name msg _ _ => "[" ++ name ++ ": " ++ msg ++ "]"
  | 0, .vobj _ => "[Object]"
  | 0, .varr _ => "[Array]"
  | d + 1, .vobj fields =>
      "\x7b " ++ String.intercalate ", "
        (fields.map (fun f => f.1 ++ ": " ++ inspect d f.2)) ++ " \x7d"
  | d + 1, .varr elems =>
      "[ " ++ String.intercalate ", " (elems.map (inspect d)) ++ " ]"

/-- `util.inspect(m, { depth: 3, colors: false })`: the top level is
always expanded, plus `inspectDepth` levels below it. -/
def utilInspect (v : JsVal) : String := inspect (inspectDepth + 1) v

/-- Cut a value at a nesting budget: object/array structure deeper than
the budget is discarded. -/
def truncateVal : Nat → JsVal → JsVal
  | 0, .vobj _ => .vobj []
  | 0, .varr _ => .varr []
  | d + 1, .vobj fields => .vobj (fields.map (fun f => (f.1, truncateVal d f.2)))
  | d + 1, .varr elems => .varr (elems.map (truncateVal d))
  | _, v => v

/-- The per-part normalization inside `WebLogger.log` (server.ts lines
49–65): an `Error` becomes a `{type, name, message, stack, cause}`
record (absent `stack`/`cause` are `undefined` properties), any other
non-null object becomes the `util.inspect` rendering, everything else is
returned unchanged. -/
def serializeMessagePart : JsVal → JsVal
  | .verr name msg stack cause =>
      .vobj [("type", .vstr "error"),
             ("name", .vstr name),
             ("message", .vstr msg),
             ("stack", match stack with | some st => .vstr st | none => .vundef),
             ("cause", match cause with | some c => c | none => .vundef)]
  | v => if isObjectNonNull v then .vstr (utilInspect v) else v

mutual

/-- Whether `JSON.stringify` succeeds on `v` (does not throw).  It
throws exactly when it reaches a `BigInt`; `Error` instances expose no
enumerable own properties and are not traversed. -/
def jsonOk : JsVal → Bool
  | .vbig _ => false
  | .vobj fields => jsonOkFields fields
  | .varr elems => jsonOkList elems
  | _ => true

def jsonOkFields : List (String × JsVal) → Bool
  | [] => true
  | f :: rest => jsonOk f.2 && jsonOkFields rest

def jsonOkList : List JsVal → Bool
  | [] => true
  | v :: rest => jsonOk v && jsonOkList rest

end

/-- One WebSocket client: `readyState = 1` means `OPEN`. -/
structure Client where
  cid : Nat
  readyState : Nat
deriving DecidableEq

/-- `broadcast(data)` (server.ts lines 36–42): for each client whose
transport is open, `client.send(JSON.stringify(data))`.  `none` models
the `JSON.stringify` `TypeError` escaping to the caller (it is raised at
the first open client; with no open client `stringify` never runs);
`some ids` models successful delivery to exactly the open clients. -/
def broadcast (clients : List Client) (data : JsVal) : Option (List Nat) :=
  if clients.any (fun c => c.readyState == 1) && !jsonOk data then none
  else some ((clients.filter (fun c => c.readyState == 1)).map (fun c => c.cid))

/-- A `LogEntry` handed to the logger: level, originator, message parts. -/
structure WebLogEntry where
  level : String
  originator : String
  message : List JsVal

/-- The `log`-event payload built by `WebLogger.log` (server.ts lines
67–72). -/
def logPayload (e : WebLogEntry) : JsVal :=
  .vobj [("type", .vstr "log"),
         ("level", .vstr e.level),
         ("originator", .vstr e.originator),
         ("message", .varr (e.message.map serializeMessagePart))]

/-- `WebLogger.log(entry)` (server.ts lines 46–74): a `null` entry is
ignored, otherwise the normalized payload is broadcast. -/
def webLoggerLog (clients : List Client) (entry : Option WebLogEntry) :
    Option (List Nat) :=
  match entry with
  | none => some []
  | some e => broadcast clients (logPayload e)

/-! ### Downloader options resolution (server.ts lines 100–122)

The `POST /api/download` handler builds the `ImageFapDownloader` options
from the request body's `options` value using optional chaining and
`??`-defaults.  Absent fields are `none`. -/

/-- `options.request.minTime` as sent by the client. -/
structure MinTimeOpts where
  page : Option Nat
  image : Option Nat

/-- `options.request` as sent by the client. -/
structure RequestOpts where
  maxRetries : Option Nat
  maxConcurrent : Option Nat
  minTime : Option MinTimeOpts

/-- `options.dirStructure` as sent by the client. -/
structure DirStructureOpts where
  user : Option Bool
  favorites : Option Bool
  folder : Option Bool
  gallery : Option Bool

/-- The `options` value of the request body. -/
structure ReqOptions where
  overwrite : Option Bool
  seqFilenames : Option Bool
  fullFilenames : Option Bool
  saveJSON : Option Bool
  saveHTML : Option Bool
  dirStructure : Option DirStructureOpts
  request : Option RequestOpts

/-- Resolved `dirStructure` configuration. -/
structure DirStructureCfg where
  user : Bool
  favorites : Bool
  folder : Bool
  gallery : Bool
deriving DecidableEq

/-- Resolved `minTime` configuration. -/
structure MinTimeCfg where
  page : Nat
  image : Nat
deriving DecidableEq

/-- Resolved `request` configuration. -/
structure RequestCfg where
  maxRetries : Nat
  maxConcurrent : Nat
  minTime : MinTimeCfg
deriving DecidableEq

/-- The options handed to `new ImageFapDownloader` (minus `outDir` and
`logger`). -/
structure DownloaderCfg where
  overwrite : Bool
  seqFilenames : Bool
  fullFilenames : Bool
  saveJSON : Bool
  saveHTML : Bool
  dirStructure : DirStructureCfg
  request : RequestCfg
deriving DecidableEq

/-- The option resolution of server.ts lines 103–121: each
`options?.…?.f ?? default` chain is `Option.bind` followed by `getD`. -/
def resolveOptions (options : Option ReqOptions) : DownloaderCfg :=
  { overwrite := (options.bind (fun o => o.overwrite)).getD false
    seqFilenames := (options.bind (fun o => o.seqFilenames)).getD false
    fullFilenames := (options.bind (fun o => o.fullFilenames)).getD false
    saveJSON := (options.bind (fun o => o.saveJSON)).getD true
    saveHTML := (options.bind (fun o => o.saveHTML)).getD false
    dirStructure :=
      { user := ((options.bind (fun o => o.dirStructure)).bind (fun d => d.user)).getD true
        favorites := ((options.bind (fun o => o.dirStructure)).bind (fun d => d.favorites)).getD true
        folder := ((options.bind (fun o => o.dirStructure)).bind (fun d => d.folder)).getD true
        gallery := ((options.bind (fun o => o.dirStructure)).bind (fun d => d.gallery)).getD true }
    request :=
      { maxRetries := ((options.bind (fun o => o.request)).bind (fun r => r.maxRetries)).getD 3
        maxConcurrent := ((options.bind (fun o => o.request)).bind (fun r => r.maxConcurrent)).getD 10
        minTime :=
          { page := (((options.bind (fun o => o.request)).bind (fun r => r.minTime)).bind
              (fun m => m.page)).getD 200
            image := (((options.bind (fun o => o.request)).bind (fun r => r.minTime)).bind
              (fun m => m.image)).getD 200 } } }

/-! ## Theorems -/

theorem charDigitVal_digitChar : ∀ d < 10, charDigitVal (Nat.digitChar d) = d := by
  decide

theorem toDigitsCore_eq_digitsAux10 :
    ∀ (fuel n : Nat) (ds : List Char), n < fuel →
      Nat.toDigitsCore 10 fuel n ds = digitsAux10 n ++ ds := by
  intro fuel
  induction fuel with
  | zero => intro n ds h; omega
  | succ fuel ih =>
    intro n ds h
    rw [Nat.toDigitsCore]
    by_cases h0 : n / 10 = 0
    · rw [if_pos h0, digitsAux10, dif_pos h0]
      simp
    · rw [if_neg h0, digitsAux10, dif_neg h0]
      have hlt : n / 10 < n := Nat.div_lt_self (Nat.pos_of_ne_zero (by
        intro hz; exact h0 (by simp [hz]))) (by decide)
      rw [ih (n / 10) (Nat.digitChar (n % 10) :: ds) (by omega)]
      simp

theorem foldl_digitsAux10 :
    ∀ (n a : Nat),
      List.foldl (fun a c => 10 * a + charDigitVal c) a (digitsAux10 n)
        = a * 10 ^ (digitsAux10 n).length + n := by
  intro n
  induction n using Nat.strong_induction_on with
  | _ n ih =>
    intro a
    by_cases h0 : n / 10 = 0
    · have hn : n < 10 := by omega
      rw [digitsAux10, dif_pos h0]
      simp only [List.foldl_cons, List.foldl_nil, List.length_singleton]
      rw [Nat.mod_eq_of_lt hn, charDigitVal_digitChar n hn]
      omega
    · have hlt : n / 10 < n := Nat.div_lt_self (Nat.pos_of_ne_zero (by
        intro hz; exact h0 (by simp [hz]))) (by decide)
      rw [digitsAux10, dif_neg h0]
      rw [List.foldl_append, ih (n / 10) hlt a]
      simp only [List.foldl_cons, List.foldl_nil, List.length_append,
        List.length_singleton]
      rw [charDigitVal_digitChar (n % 10) (Nat.mod_lt n (by omega))]
      have hmod : 10 * (n / 10) + n % 10 = n := Nat.div_add_mod n 10
      rw [pow_succ]
      ring_nf
      omega

theorem decodeDigits_digitsAux10 (n : Nat) : decodeDigits (digitsAux10 n) = n := by
  unfold decodeDigits
  rw [foldl_digitsAux10 n 0]
  simp

theorem nat_repr_injective : ∀ m n : Nat, Nat.repr m = Nat.repr n → m = n := by
  intro m n h
  have hd : Nat.toDigits 10 m = Nat.toDigits 10 n := by
    have := congrArg String.data h
    simpa [Nat.repr, List.asString] using this
  have hm := toDigitsCore_eq_digitsAux10 (m + 1) m [] (Nat.lt_succ_self m)
  have hn := toDigitsCore_eq_digitsAux10 (n + 1) n [] (Nat.lt_succ_self n)
  rw [Nat.toDigits] at hd
  rw [Nat.toDigits] at hd
  rw [hm, hn] at hd
  simp only [List.append_nil] at hd
  have := congrArg decodeDigits hd
  rwa [decodeDigits_digitsAux10, decodeDigits_digitsAux10] at this

theorem mem_eraseActive {l : List (String × Nat)} {k : String} {p : String × Nat}
    (h : p ∈ eraseActive l k) : p ∈ l ∧ p.1 ≠ k := by
  induction l with
  | nil => cases h
  | cons hd tl ih =>
    by_cases hk : hd.1 = k
    · rw [eraseActive, if_pos hk] at h
      exact ⟨List.mem_cons_of_mem hd (ih h).1, (ih h).2⟩
    · rw [eraseActive, if_neg hk] at h
      rcases List.mem_cons.mp h with h1 | h1
      · exact ⟨List.mem_cons.mpr (Or.inl h1), by rw [h1]; exact hk⟩
      · exact ⟨List.mem_cons_of_mem hd (ih h1).1, (ih h1).2⟩

theorem lookupActive_eraseActive_self (l : List (String × Nat)) (k : String) :
    lookupActive (eraseActive l k) k = none := by
  induction l with
  | nil => rfl
  | cons hd tl ih =>
    by_cases hk : hd.1 = k
    · rw [eraseActive, if_pos hk]; exact ih
    · rw [eraseActive, if_neg hk, lookupActive, if_neg hk]; exact ih

theorem lookupActive_mem {l : List (String × Nat)} {k : String} {v : Nat}
    (h : lookupActive l k = some v) : (k, v) ∈ l := by
  induction l with
  | nil => cases h
  | cons hd tl ih =>
    by_cases hk : hd.1 = k
    · rw [lookupActive, if_pos hk] at h
      have : hd = (k, v) := by
        cases hd; simp_all
      exact this ▸ List.mem_cons_self hd tl
    · rw [lookupActive, if_neg hk] at h
      exact List.mem_cons_of_mem hd (ih h)

theorem lookupActive_isSome_of_mem {l : List (String × Nat)} {p : String × Nat}
    (h : p ∈ l) : ∃ v, lookupActive l p.1 = some v := by
  induction l with
  | nil => cases h
  | cons hd tl ih =>
    by_cases hk : hd.1 = p.1
    · exact ⟨hd.2, by rw [lookupActive, if_pos hk]⟩
    · rcases List.mem_cons.mp h with h1 | h1
      · exact absurd (h1 ▸ rfl) hk
      · rcases ih h1 with ⟨v, hv⟩
        exact ⟨v, by rw [lookupActive, if_neg hk]; exact hv⟩

theorem findSess_eq_some {l : List Sess} {sid : Nat} {sess : Sess}
    (h : findSess l sid = some sess) : sess ∈ l ∧ sess.sid = sid := by
  refine ⟨List.mem_of_find?_eq_some h, ?_⟩
  have := List.find?_some h
  simpa using this

theorem findSess_updSess (l : List Sess) (sid sid' : Nat) (f : Sess → Sess)
    (hf : ∀ x, (f x).sid = x.sid) :
    findSess (updSess l sid f) sid'
      = (findSess l sid').map (fun x => if x.sid = sid then f x else x) := by
  induction l with
  | nil => rfl
  | cons hd tl ih =>
    simp only [findSess, updSess, List.map_cons] at *
    by_cases hhd : hd.sid = sid
    · by_cases hs : sid = sid'
      · rw [if_pos hhd]
        rw [List.find?_cons_of_pos _ (by simp [hf, hhd, hs]),
            List.find?_cons_of_pos _ (by simp [hhd, hs])]
        simp [hhd]
      · rw [if_pos hhd]
        rw [List.find?_cons_of_neg _ (by simp [hf, hhd, hs]),
            List.find?_cons_of_neg _ (by simp [hhd, hs])]
        exact ih
    · by_cases hs : hd.sid = sid'
      · rw [if_neg hhd]
        rw [List.find?_cons_of_pos _ (by simp [hs]),
            List.find?_cons_of_pos _ (by simp [hs])]
        simp [hhd]
      · rw [if_neg hhd]
        rw [List.find?_cons_of_neg _ (by simp [hs]),
            List.find?_cons_of_neg _ (by simp [hs])]
        exact ih

theorem mem_updSess {l : List Sess} {sid : Nat} {f : Sess → Sess} {a : Sess}
    (h : a ∈ updSess l sid f) : ∃ b ∈ l, a = if b.sid = sid then f b else b := by
  rcases List.mem_map.mp h with ⟨b, hb, hba⟩
  exact ⟨b, hb, hba.symm⟩

theorem thenContOp_none {s : SrvState} {sid : Nat}
    (h : findSess s.sessions sid = none) : thenContOp s sid = s := by
  unfold thenContOp; rw [h]

theorem thenContOp_some {s : SrvState} {sid : Nat} {sess : Sess}
    (h : findSess s.sessions sid = some sess) :
    thenContOp s sid =
      { s with
        sessions := updSess s.sessions sid (fun x =>
          { x with settled := true
                   st := if x.st = .running then .completed else x.st })
        activeDownloads := eraseActive s.activeDownloads sess.id
        events := s.events ++ [⟨.complete, sess.id, "Download completed successfully"⟩] } := by
  unfold thenContOp; rw [h]

theorem catchContOp_none {s : SrvState} {sid : Nat} {errMsg : String}
    (h : findSess s.sessions sid = none) : catchContOp s sid errMsg = s := by
  unfold catchContOp; rw [h]

theorem catchContOp_some {s : SrvState} {sid : Nat} {sess : Sess} {errMsg : String}
    (h : findSess s.sessions sid = some sess) :
    catchContOp s sid errMsg =
      { s with
        sessions := updSess s.sessions sid (fun x =>
          { x with settled := true
                   st := if x.st = .running then .failed else x.st })
        activeDownloads := eraseActive s.activeDownloads sess.id
        events := s.events ++ (if sess.aborted then [] else [⟨.error, sess.id, errMsg⟩]) } := by
  unfold catchContOp; rw [h]

theorem cancelOp_none {s : SrvState} {id : String}
    (h : lookupActive s.activeDownloads id = none) : cancelOp s id = (s, false) := by
  unfold cancelOp; rw [h]

theorem cancelOp_some {s : SrvState} {id : String} {sid : Nat}
    (h : lookupActive s.activeDownloads id = some sid) :
    cancelOp s id =
      ({ s with
          sessions := updSess s.sessions sid
            (fun x => { x with aborted := true, st := .cancelled })
          activeDownloads := eraseActive s.activeDownloads id
          events := s.events ++ [⟨.cancelled, id, "Download cancelled"⟩] }, true) := by
  unfold cancelOp; rw [h]

/-- Registry invariant (spec §3): ghost identities are bounded by
`nextSid`, and every `activeDownloads` entry points at a session that
carries that key and is still in a non-terminal (running) state. -/
def Inv (s : SrvState) : Prop :=
  (∀ sess ∈ s.sessions, sess.sid < s.nextSid) ∧
  (∀ p ∈ s.activeDownloads, ∃ sess, findSess s.sessions p.2 = some sess ∧
     sess.id = p.1 ∧ sess.st = SpecStatus.running)

theorem inv_init : Inv initState := by
  constructor
  · intro sess h; cases h
  · intro p h; cases h

theorem inv_createOp {s : SrvState} (hs : Inv s) (t : Nat) : Inv (createOp s t) := by
  obtain ⟨h1, h2⟩ := hs
  constructor
  · intro sess hmem
    rcases List.mem_cons.mp hmem with h | h
    · simp [h, createOp]
    · exact Nat.lt_succ_of_lt (h1 sess h)
  · intro p hp
    rcases List.mem_cons.mp hp with h | h
    · refine ⟨⟨s.nextSid, downloadIdOf t, false, false, .running⟩, ?_, by simp [h], by simp [h]⟩
      simp [findSess, List.find?, h]
    · obtain ⟨hmem, _⟩ := mem_eraseActive h
      rcases h2 p hmem with ⟨sess, hfind, hid, hst⟩
      refine ⟨sess, ?_, hid, hst⟩
      obtain ⟨hsessmem, hsid⟩ := findSess_eq_some hfind
      have hlt : sess.sid < s.nextSid := h1 sess hsessmem
      show List.find? _ (⟨s.nextSid, downloadIdOf t, false, false, .running⟩ :: s.sessions) = _
      rw [List.find?_cons_of_neg _ (by simp; omega)]
      exact hfind

theorem inv_thenContOp {s : SrvState} (hs : Inv s) (sid : Nat) :
    Inv (thenContOp s sid) := by
  obtain ⟨h1, h2⟩ := hs
  cases hfind : findSess s.sessions sid with
  | none => rw [thenContOp_none hfind]; exact ⟨h1, h2⟩
  | some sess =>
    rw [thenContOp_some hfind]
    constructor
    · intro x hx
      rcases mem_updSess hx with ⟨b, hb, hxb⟩
      have := h1 b hb
      by_cases hbs : b.sid = sid <;> simp [hxb, hbs] <;> omega
    · intro p hp
      obtain ⟨hpm, hpk⟩ := mem_eraseActive hp
      rcases h2 p hpm with ⟨sess', hfind', hid', hst'⟩
      have hne : p.2 ≠ sid := by
        intro he
        rw [he, hfind] at hfind'
        exact hpk (by rw [← hid', Option.some.inj hfind'])
      refine ⟨sess', ?_, hid', hst'⟩
      dsimp only
      rw [findSess_updSess]
      · rw [hfind']
        have hs2 : sess'.sid = p.2 := (findSess_eq_some hfind').2
        simp [hs2, hne]
      · exact fun x => rfl

theorem inv_catchContOp {s : SrvState} (hs : Inv s) (sid : Nat) (errMsg : String) :
    Inv (catchContOp s sid errMsg) := by
  obtain ⟨h1, h2⟩ := hs
  cases hfind : findSess s.sessions sid with
  | none => rw [catchContOp_none hfind]; exact ⟨h1, h2⟩
  | some sess =>
    rw [catchContOp_some hfind]
    constructor
    · intro x hx
      rcases mem_updSess hx with ⟨b, hb, hxb⟩
      have := h1 b hb
      by_cases hbs : b.sid = sid <;> simp [hxb, hbs] <;> omega
    · intro p hp
      obtain ⟨hpm, hpk⟩ := mem_eraseActive hp
      rcases h2 p hpm with ⟨sess', hfind', hid', hst'⟩
      have hne : p.2 ≠ sid := by
        intro he
        rw [he, hfind] at hfind'
        exact hpk (by rw [← hid', Option.some.inj hfind'])
      refine ⟨sess', ?_, hid', hst'⟩
      dsimp only
      rw [findSess_updSess]
      · rw [hfind']
        have hs2 : sess'.sid = p.2 := (findSess_eq_some hfind').2
        simp [hs2, hne]
      · exact fun x => rfl

theorem inv_cancelOp {s : SrvState} (hs : Inv s) (id : String) :
    Inv (cancelOp s id).1 := by
  obtain ⟨h1, h2⟩ := hs
  cases hlook : lookupActive s.activeDownloads id with
  | none => rw [cancelOp_none hlook]; exact ⟨h1, h2⟩
  | some sid =>
    rw [cancelOp_some hlook]
    constructor
    · intro x hx
      rcases mem_updSess hx with ⟨b, hb, hxb⟩
      have := h1 b hb
      by_cases hbs : b.sid = sid <;> simp [hxb, hbs] <;> omega
    · intro p hp
      obtain ⟨hpm, hpk⟩ := mem_eraseActive hp
      rcases h2 p hpm with ⟨sess', hfind', hid', hst'⟩
      have hmemc : (id, sid) ∈ s.activeDownloads := lookupActive_mem hlook
      rcases h2 (id, sid) hmemc with ⟨sessc, hfindc, hidc, _⟩
      have hne : p.2 ≠ sid := by
        intro he
        rw [he, hfindc] at hfind'
        have hcc : sessc = sess' := Option.some.inj hfind'
        exact hpk (by rw [← hid', ← hcc, hidc])
      refine ⟨sess', ?_, hid', hst'⟩
      dsimp only
      rw [findSess_updSess]
      · rw [hfind']
        have hs2 : sess'.sid = p.2 := (findSess_eq_some hfind').2
        simp [hs2, hne]
      · exact fun x => rfl

theorem inv_step {s s' : SrvState} (hs : Inv s) (hstep : Step s s') : Inv s' := by
  cases hstep with
  | create t => exact inv_createOp hs t
  | thenCont sid sess h hset => exact inv_thenContOp hs sid
  | catchCont sid sess errMsg h hset => exact inv_catchContOp hs sid errMsg
  | cancel id => exact inv_cancelOp hs id

theorem inv_reach {s : SrvState} (h : Reach s) : Inv s := by
  induction h with
  | init => exact inv_init
  | step hr hstep ih => exact inv_step ih hstep

theorem validatePath_some {fs : FS} {dirPath : String} {e : FSEntry}
    (h : fsLookup fs dirPath = some e) :
    validatePath fs dirPath =
      { valid := decide (e.ftype = FType.dir) && e.writable
        pathExists := true
        isDirectory := decide (e.ftype = FType.dir)
        writable := e.writable
        parentExists := parentExistsOf fs dirPath
        parentPath := parentOf dirPath
        message :=
          if e.ftype = FType.dir then
            if e.writable then "Directory is valid and writable"
            else "Directory exists but is not writable"
          else "Path exists but is not a directory" } := by
  unfold validatePath; rw [h]

theorem validatePath_none {fs : FS} {dirPath : String}
    (h : fsLookup fs dirPath = none) :
    validatePath fs dirPath =
      { valid := parentExistsOf fs dirPath
        pathExists := false
        isDirectory := false
        writable := parentExistsOf fs dirPath
        parentExists := parentExistsOf fs dirPath
        parentPath := parentOf dirPath
        message :=
          if parentExistsOf fs dirPath then "Directory will be created"
          else "Parent directory does not exist" } := by
  unfold validatePath; rw [h]

theorem jsonOkList_eq_all (l : List JsVal) : jsonOkList l = l.all jsonOk := by
  induction l with
  | nil => rfl
  | cons v rest ih => rw [jsonOkList, List.all_cons, ih]

theorem jsonOkFields_eq_all (l : List (String × JsVal)) :
    jsonOkFields l = l.all (fun f => jsonOk f.2) := by
  induction l with
  | nil => rfl
  | cons f rest ih => rw [jsonOkFields, List.all_cons, ih]

theorem inspect_truncateVal : ∀ (d : Nat) (v : JsVal),
    inspect d (truncateVal d v) = inspect d v := by
  intro d
  induction d with
  | zero =>
    intro v
    cases v <;> rfl
  | succ d ih =>
    intro v
    cases v with
    | vobj fields =>
      show inspect (d + 1) (.vobj (fields.map (fun f => (f.1, truncateVal d f.2))))
          = inspect (d + 1) (.vobj fields)
      simp only [inspect, List.map_map]
      have : ((fun f : String × JsVal => f.1 ++ ": " ++ inspect d f.2) ∘
          fun f : String × JsVal => (f.1, truncateVal d f.2))
          = fun f : String × JsVal => f.1 ++ ": " ++ inspect d f.2 := by
        funext f
        simp [Function.comp, ih]
      rw [this]
    | varr elems =>
      show inspect (d + 1) (.varr (elems.map (truncateVal d)))
          = inspect (d + 1) (.varr elems)
      simp only [inspect, List.map_map]
      have : (inspect d ∘ truncateVal d) = inspect d := by
        funext v; simp [Function.comp, ih]
      rw [this]
    | vstr s => rfl
    | vnum n => rfl
    | vbool b => rfl
    | vnull => rfl
    | vundef => rfl
    | vbig n => rfl
    | verr a b c dd => rfl

/-! ## Claims -/

/-- C1, counterexample: the claim "two create calls, however close in
time, never return the same identifier" fails.  `downloadId` is
`Date.now().toString()`, which has millisecond resolution: two create
requests handled during the same millisecond (here `t = 1000`) are
distinct create calls (ghost identities 0 and 1) that both return the
identifier `"1000"`, the second overwriting the first's registry
entry. -/
theorem create_id_collision :
    downloadIdOf 1000 = "1000" ∧
    (createOp (createOp initState 1000) 1000).sessions.map (fun sess => (sess.sid, sess.id))
      = [(1, "1000"), (0, "1000")] ∧
    (createOp (createOp initState 1000) 1000).activeDownloads = [("1000", 1)] := by
  decide

/-- C1, amended: `create` returns the millisecond timestamp rendered in
decimal as the session identifier, registered for the new session; create
calls at distinct timestamps return distinct identifiers (decimal
rendering is injective), but calls within the same millisecond return
the same identifier. -/
theorem create_id_fresh_across_timestamps (s : SrvState) (t1 t2 : Nat) (h : t1 ≠ t2) :
    ((createOp s t1).sessions.map (fun sess => sess.id)).head? = some (downloadIdOf t1) ∧
    downloadIdOf t1 ≠ downloadIdOf t2 := by
  refine ⟨rfl, fun he => h (nat_repr_injective t1 t2 he)⟩

/-- Witness for C1's amended theorem at `t1 = 1000`, `t2 = 1001`. -/
theorem create_id_fresh_across_timestamps_witness :
    ((createOp initState 1000).sessions.map (fun sess => sess.id)).head?
        = some (downloadIdOf 1000) ∧
    downloadIdOf 1000 ≠ downloadIdOf 1001 :=
  create_id_fresh_across_timestamps initState 1000 1001 (by decide)

/-- C2: in every reachable server state, every identifier answered by
`GET /api/downloads` maps to a session that has not reached a terminal
state — each settling continuation and the cancel handler broadcast and
delete the registry entry in one atomic (await-free) block, so a
terminal session is never observable in the registry. -/
theorem registry_never_lists_terminal {s : SrvState} (h : Reach s) :
    ∀ id ∈ listIds s, ∃ sid sess,
      lookupActive s.activeDownloads id = some sid ∧
      findSess s.sessions sid = some sess ∧
      sess.id = id ∧
      sess.st.isTerminal = false := by
  obtain ⟨_, h2⟩ := inv_reach h
  intro id hid
  rcases List.mem_map.mp hid with ⟨p, hp, hpid⟩
  rcases lookupActive_isSome_of_mem hp with ⟨v, hv⟩
  have hmem : (p.1, v) ∈ s.activeDownloads := lookupActive_mem hv
  rcases h2 (p.1, v) hmem with ⟨sess, hfind, hsid, hrun⟩
  subst hpid
  exact ⟨v, sess, hv, hfind, hsid, by simp [hrun, SpecStatus.isTerminal]⟩

/-- Witness for C2 at the reachable state after one create call. -/
theorem registry_never_lists_terminal_witness :
    ∃ sid sess,
      lookupActive (createOp initState 1000).activeDownloads "1000" = some sid ∧
      findSess (createOp initState 1000).sessions sid = some sess ∧
      sess.id = "1000" ∧
      sess.st.isTerminal = false :=
  registry_never_lists_terminal
    (Reach.step Reach.init (Step.create initState 1000)) "1000" (by decide)

/-- C3: the cancel handler looks up and removes the session if present.
On a hit it aborts the session's controller (marking it cancelled),
appends exactly one `cancelled` event, reports found, and leaves the
identifier unbound, so a second cancel of the same identifier finds
nothing, changes nothing, reports not-found and appends no event.  On a
miss it answers not-found with no event and no state change. -/
theorem cancel_found_then_not_found (s : SrvState) (id : String) :
    (lookupActive s.activeDownloads id = none → cancelOp s id = (s, false)) ∧
    (∀ sid, lookupActive s.activeDownloads id = some sid →
      (cancelOp s id).2 = true ∧
      (cancelOp s id).1.events = s.events ++ [⟨.cancelled, id, "Download cancelled"⟩] ∧
      (∀ sess, findSess s.sessions sid = some sess →
        findSess (cancelOp s id).1.sessions sid
          = some { sess with aborted := true, st := .cancelled }) ∧
      lookupActive (cancelOp s id).1.activeDownloads id = none ∧
      cancelOp (cancelOp s id).1 id = ((cancelOp s id).1, false)) := by
  constructor
  · intro h; exact cancelOp_none h
  · intro sid h
    rw [cancelOp_some h]
    refine ⟨rfl, rfl, ?_, ?_, ?_⟩
    · intro sess hfind
      dsimp only
      rw [findSess_updSess]
      · rw [hfind]
        simp [(findSess_eq_some hfind).2]
      · exact fun x => rfl
    · exact lookupActive_eraseActive_self s.activeDownloads id
    · exact cancelOp_none (lookupActive_eraseActive_self s.activeDownloads id)

/-- Witness for C3: cancel after one create finds the session and emits
one `cancelled` event; the immediate second cancel is a not-found no-op. -/
theorem cancel_found_then_not_found_witness :
    (cancelOp (createOp initState 1000) "1000").2 = true ∧
    (cancelOp (createOp initState 1000) "1000").1.events
      = (createOp initState 1000).events ++ [⟨.cancelled, "1000", "Download cancelled"⟩] ∧
    cancelOp (cancelOp (createOp initState 1000) "1000").1 "1000"
      = ((cancelOp (createOp initState 1000) "1000").1, false) := by
  have h := (cancel_found_then_not_found (createOp initState 1000) "1000").2 0 (by decide)
  exact ⟨h.1, h.2.1, h.2.2.2.2⟩

/-- C4, counterexample: the claim quantifies over failures "after a
cancellation was already accepted for the same session identifier", but
the code keys suppression on the failing session's own
`abortController`, and identifiers are not unique (see C1).  Trace: two
creates in millisecond 1000 share the identifier `"1000"` (the second
overwrites the registry entry); a cancel of `"1000"` is accepted (it
aborts the second session); the first session's failure, observed
afterwards and unsettled until then, still broadcasts an `error` event
for the same identifier instead of being suppressed. -/
theorem failure_after_cancel_not_suppressed_on_collision :
    (cancelOp (createOp (createOp initState 1000) 1000) "1000").2 = true ∧
    (findSess (cancelOp (createOp (createOp initState 1000) 1000) "1000").1.sessions 0).map
        (fun sess => (sess.id, sess.aborted, sess.settled)) = some ("1000", false, false) ∧
    (catchContOp (cancelOp (createOp (createOp initState 1000) 1000) "1000").1 0
        "network error").events
      = (cancelOp (createOp (createOp initState 1000) 1000) "1000").1.events
        ++ [⟨.error, "1000", "network error"⟩] := by
  decide

/-- C4, amended: for every operation failure observed after a
cancellation was already accepted for that session (its own cancellation
token triggered, which is what an accepted cancel does to the session it
finds), the failure path suppresses the `error` event — only the
`cancelled` event from the cancel path is published — while a failure
with no prior cancellation of that session publishes exactly one `error`
event. -/
theorem failure_after_cancel_suppressed (s : SrvState) (sid : Nat) (sess : Sess)
    (errMsg : String) (h : findSess s.sessions sid = some sess) :
    (sess.aborted = true → (catchContOp s sid errMsg).events = s.events) ∧
    (sess.aborted = false →
      (catchContOp s sid errMsg).events = s.events ++ [⟨.error, sess.id, errMsg⟩]) ∧
    (∀ id, lookupActive s.activeDownloads id = some sid →
      findSess (cancelOp s id).1.sessions sid
        = some { sess with aborted := true, st := .cancelled }) := by
  refine ⟨?_, ?_, ?_⟩
  · intro ha; rw [catchContOp_some h]; simp [ha]
  · intro ha; rw [catchContOp_some h]; simp [ha]
  · intro id hl
    rw [cancelOp_some hl]
    dsimp only
    rw [findSess_updSess]
    · rw [h]
      simp [(findSess_eq_some h).2]
    · exact fun x => rfl

/-- Witness for C4's amended theorem: a failing session that was never
cancelled publishes one `error` event; after a cancel is accepted for a
session, that session's token is triggered. -/
theorem failure_after_cancel_suppressed_witness :
    (catchContOp (createOp initState 5) 0 "boom").events
      = (createOp initState 5).events ++ [⟨.error, "5", "boom"⟩] ∧
    findSess (cancelOp (createOp initState 5) "5").1.sessions 0
      = some { sid := 0, id := "5", aborted := true, settled := false,
               st := SpecStatus.cancelled } := by
  have h := failure_after_cancel_suppressed (createOp initState 5) 0
    ⟨0, "5", false, false, .running⟩ "boom" (by decide)
  exact ⟨h.2.1 rfl, h.2.2 "5" (by decide)⟩

/-- C5: the validation result matches the spec's decision table — valid
with the "ready" message for an existing writable directory; invalid
when the path exists but is not writable or not a directory; valid with
the "will be created" message for a missing path whose parent exists;
invalid with the "parent missing" message when neither exists. -/
theorem validate_path_table (fs : FS) (p : String) :
    ((validatePath fs p).pathExists = true → (validatePath fs p).isDirectory = true →
      (validatePath fs p).writable = true →
      (validatePath fs p).valid = true ∧
      (validatePath fs p).message = "Directory is valid and writable") ∧
    ((validatePath fs p).pathExists = true → (validatePath fs p).isDirectory = true →
      (validatePath fs p).writable = false →
      (validatePath fs p).valid = false ∧
      (validatePath fs p).message = "Directory exists but is not writable") ∧
    ((validatePath fs p).pathExists = true → (validatePath fs p).isDirectory = false →
      (validatePath fs p).valid = false ∧
      (validatePath fs p).message = "Path exists but is not a directory") ∧
    ((validatePath fs p).pathExists = false → (validatePath fs p).parentExists = true →
      (validatePath fs p).valid = true ∧
      (validatePath fs p).message = "Directory will be created") ∧
    ((validatePath fs p).pathExists = false → (validatePath fs p).parentExists = false →
      (validatePath fs p).valid = false ∧
      (validatePath fs p).message = "Parent directory does not exist") := by
  cases hfs : fsLookup fs p with
  | some e =>
    rw [validatePath_some hfs]
    by_cases hd : e.ftype = FType.dir <;> cases hw : e.writable <;> simp [hd, hw]
  | none =>
    rw [validatePath_none hfs]
    cases hpe : parentExistsOf fs p <;> simp [hpe]

/-- Witness for C5, first table row: an existing writable directory. -/
theorem validate_path_table_witness :
    (validatePath [("/a", ⟨FType.dir, true⟩), ("/a/b", ⟨FType.dir, true⟩)] "/a/b").valid
        = true ∧
    (validatePath [("/a", ⟨FType.dir, true⟩), ("/a/b", ⟨FType.dir, true⟩)] "/a/b").message
        = "Directory is valid and writable" :=
  (validate_path_table [("/a", ⟨FType.dir, true⟩), ("/a/b", ⟨FType.dir, true⟩)] "/a/b").1
    (by decide) (by decide) (by decide)

/-- C6, counterexample: for a path that does not exist, the handler sets
`writable = parentExists` (server.ts line 242) — parent existence, not a
writability probe of the parent.  Here the parent `/a` exists as a
directory whose `W_OK` probe fails, the path `/a/b` does not exist, and
`validate` still reports `writable = true`. -/
theorem validate_writable_not_parent_writability :
    (validatePath [("/a", ⟨FType.dir, false⟩)] "/a/b").pathExists = false ∧
    (validatePath [("/a", ⟨FType.dir, false⟩)] "/a/b").writable = true ∧
    (fsLookup [("/a", ⟨FType.dir, false⟩)] (parentOf "/a/b")).map (fun e => e.writable)
      = some false := by
  decide

/-- C6, amended: for every path that does not yet exist, the `writable`
field reported by validate equals whether the parent exists and is a
directory (the `parentExists` probe); no writability probe of the parent
is performed. -/
theorem validate_writable_eq_parent_exists (fs : FS) (p : String)
    (h : fsLookup fs p = none) :
    (validatePath fs p).writable = parentExistsOf fs p ∧
    (validatePath fs p).writable = (validatePath fs p).parentExists := by
  rw [validatePath_none h]
  exact ⟨rfl, rfl⟩

/-- Witness for C6's amended theorem on a concrete filesystem. -/
theorem validate_writable_eq_parent_exists_witness :
    (validatePath [("/a", ⟨FType.dir, false⟩)] "/a/b").writable
        = parentExistsOf [("/a", ⟨FType.dir, false⟩)] "/a/b" ∧
    (validatePath [("/a", ⟨FType.dir, false⟩)] "/a/b").writable
        = (validatePath [("/a", ⟨FType.dir, false⟩)] "/a/b").parentExists :=
  validate_writable_eq_parent_exists [("/a", ⟨FType.dir, false⟩)] "/a/b" (by decide)

/-- C7: each part of a `log` event's payload is normalized — a
structured error value becomes a record carrying the source error's name
and message exactly, its stack trace when present, and its cause; any
other non-primitive part becomes a textual rendering bounded at the
fixed depth 3 (the rendering only depends on the value cut at that
nesting budget); primitive parts pass through unchanged. -/
theorem log_part_normalization (m : JsVal) :
    (∀ name msg stack cause, m = JsVal.verr name msg stack cause →
      ∃ fields, serializeMessagePart m = JsVal.vobj fields ∧
        List.lookup "name" fields = some (JsVal.vstr name) ∧
        List.lookup "message" fields = some (JsVal.vstr msg) ∧
        (∀ st, stack = some st → List.lookup "stack" fields = some (JsVal.vstr st)) ∧
        (∀ c, cause = some c → List.lookup "cause" fields = some c)) ∧
    (isObjectNonNull m = true →
      (∀ name msg stack cause, m ≠ JsVal.verr name msg stack cause) →
      serializeMessagePart m = JsVal.vstr (utilInspect m) ∧
      utilInspect m = utilInspect (truncateVal (inspectDepth + 1) m)) ∧
    (isPassThrough m = true → serializeMessagePart m = m) := by
  refine ⟨?_, ?_, ?_⟩
  · rintro name msg stack cause rfl
    refine ⟨_, rfl, rfl, rfl, ?_, ?_⟩
    · rintro st rfl; rfl
    · rintro c rfl; rfl
  · intro hobj hne
    cases m with
    | verr a b c d => exact absurd rfl (hne a b c d)
    | vobj fields => exact ⟨rfl, (inspect_truncateVal (inspectDepth + 1) _).symm⟩
    | varr elems => exact ⟨rfl, (inspect_truncateVal (inspectDepth + 1) _).symm⟩
    | vstr s => simp [isObjectNonNull] at hobj
    | vnum n => simp [isObjectNonNull] at hobj
    | vbool b => simp [isObjectNonNull] at hobj
    | vnull => simp [isObjectNonNull] at hobj
    | vundef => simp [isObjectNonNull] at hobj
    | vbig n => simp [isObjectNonNull] at hobj
  · intro hp
    cases m with
    | verr a b c d => simp [isPassThrough, isObjectNonNull] at hp
    | vobj fields => simp [isPassThrough, isObjectNonNull] at hp
    | varr elems => simp [isPassThrough, isObjectNonNull] at hp
    | vstr s => rfl
    | vnum n => rfl
    | vbool b => rfl
    | vnull => rfl
    | vundef => rfl
    | vbig n => rfl

/-- Witness for C7: a primitive passes through; an object part becomes
its depth-bounded rendering. -/
theorem log_part_normalization_witness :
    serializeMessagePart (JsVal.vstr "hi") = JsVal.vstr "hi" ∧
    (serializeMessagePart (JsVal.vobj [("a", JsVal.vnum 1)])
        = JsVal.vstr (utilInspect (JsVal.vobj [("a", JsVal.vnum 1)])) ∧
      utilInspect (JsVal.vobj [("a", JsVal.vnum 1)])
        = utilInspect (truncateVal (inspectDepth + 1) (JsVal.vobj [("a", JsVal.vnum 1)]))) :=
  ⟨(log_part_normalization (JsVal.vstr "hi")).2.2 rfl,
   (log_part_normalization (JsVal.vobj [("a", JsVal.vnum 1)])).2.1 rfl
     (fun _ _ _ _ h => JsVal.noConfusion h)⟩

/-- C8, counterexample: the adapter and its publishing path are not
throw-free and have no fallback placeholder.  A part the JSON encoder
cannot serialize — here a `BigInt`, on which `JSON.stringify` throws a
`TypeError`; a circular `cause` on an error part behaves the same —
passes through the normalization untouched, `WebLogger.log` and
`broadcast` contain no try/catch, and the exception escapes to the
caller (modelled by `none`) instead of any placeholder string. -/
theorem web_logger_throws_on_unserializable :
    jsonOk (logPayload ⟨"error", "downloader", [JsVal.vbig 1]⟩) = false ∧
    webLoggerLog [⟨0, 1⟩] (some ⟨"error", "downloader", [JsVal.vbig 1]⟩) = none := by
  exact ⟨rfl, rfl⟩

/-- C8, amended: the adapter and the publishing path do not throw for
any record whose normalized parts the JSON encoder accepts; in
particular every non-error object part (however deeply nested) is safe,
since the bounded-depth renderer turns it into a string.  Only a part
the JSON encoder rejects — a `BigInt` primitive, or an error whose raw
`cause` is unserializable — makes the broadcast throw, and no fallback
placeholder exists. -/
theorem web_logger_no_throw_on_serializable (clients : List Client) (e : WebLogEntry)
    (h : ∀ m ∈ e.message, jsonOk (serializeMessagePart m) = true) :
    (∃ ds, webLoggerLog clients (some e) = some ds) ∧
    (∀ fields, jsonOk (serializeMessagePart (JsVal.vobj fields)) = true) ∧
    (∀ elems, jsonOk (serializeMessagePart (JsVal.varr elems)) = true) := by
  refine ⟨?_, fun fields => rfl, fun elems => rfl⟩
  have hok : jsonOk (logPayload e) = true := by
    show jsonOkFields _ = true
    simp only [jsonOkFields, jsonOk, Bool.true_and, Bool.and_true]
    rw [jsonOkList_eq_all, List.all_eq_true]
    intro x hx
    rcases List.mem_map.mp hx with ⟨m, hm, rfl⟩
    exact h m hm
  refine ⟨(clients.filter (fun c => c.readyState == 1)).map (fun c => c.cid), ?_⟩
  simp [webLoggerLog, broadcast, hok]

/-- Witness for C8's amended theorem: a plain-string record broadcasts
without throwing. -/
theorem web_logger_no_throw_witness :
    ∃ ds, webLoggerLog [⟨0, 1⟩] (some ⟨"info", "x", [JsVal.vstr "hello"]⟩) = some ds :=
  (web_logger_no_throw_on_serializable [⟨0, 1⟩] ⟨"info", "x", [JsVal.vstr "hello"]⟩
    (by intro m hm; rw [List.mem_singleton.mp hm]; rfl)).1

/-- C9: `broadcast` attempts delivery only to observer channels whose
transport is open (`readyState = 1`); a channel that has already closed
is skipped entirely — it can neither raise to the caller nor receive,
and the delivery set of this (hence any later) publish excludes it. -/
theorem broadcast_prunes_closed (clients : List Client) (c : Client) (data : JsVal)
    (hc : c.readyState ≠ 1) :
    broadcast (c :: clients) data = broadcast clients data ∧
    (∀ ds, broadcast clients data = some ds →
      ∀ i ∈ ds, ∃ x ∈ clients, x.cid = i ∧ x.readyState = 1) := by
  have hb : (c.readyState == 1) = false := by
    simp [hc]
  constructor
  · simp [broadcast, List.any_cons, List.filter_cons, hb]
  · intro ds hds i hi
    by_cases hcond : (clients.any (fun x => x.readyState == 1) && !jsonOk data) = true
    · simp [broadcast, hcond] at hds
    · rw [broadcast, if_neg (by simpa using hcond)] at hds
      rcases List.mem_map.mp (Option.some.inj hds ▸ hi) with ⟨x, hxmem, hxi⟩
      have hx := List.mem_filter.mp hxmem
      exact ⟨x, hx.1, hxi, by simpa using hx.2⟩

/-- Witness for C9: a closed channel (`readyState = 3`) is invisible to
a publish. -/
theorem broadcast_prunes_closed_witness :
    broadcast [⟨7, 3⟩, ⟨1, 1⟩] (JsVal.vstr "ping") = broadcast [⟨1, 1⟩] (JsVal.vstr "ping") :=
  (broadcast_prunes_closed [⟨1, 1⟩] ⟨7, 3⟩ (JsVal.vstr "ping") (by decide)).1

/-- C10: every option field absent from a create request resolves to its
fixed default — `overwrite = false`, `seqFilenames = false`,
`fullFilenames = false`, `saveJSON = true`, `saveHTML = false`, the four
`dirStructure` flags `true`, `maxRetries = 3`, `maxConcurrent = 10`, and
`minTime` 200 per page and per image request. -/
theorem create_option_defaults (options : Option ReqOptions) :
    (options.bind (fun o => o.overwrite) = none →
      (resolveOptions options).overwrite = false) ∧
    (options.bind (fun o => o.seqFilenames) = none →
      (resolveOptions options).seqFilenames = false) ∧
    (options.bind (fun o => o.fullFilenames) = none →
      (resolveOptions options).fullFilenames = false) ∧
    (options.bind (fun o => o.saveJSON) = none →
      (resolveOptions options).saveJSON = true) ∧
    (options.bind (fun o => o.saveHTML) = none →
      (resolveOptions options).saveHTML = false) ∧
    ((options.bind (fun o => o.dirStructure)).bind (fun d => d.user) = none →
      (resolveOptions options).dirStructure.user = true) ∧
    ((options.bind (fun o => o.dirStructure)).bind (fun d => d.favorites) = none →
      (resolveOptions options).dirStructure.favorites = true) ∧
    ((options.bind (fun o => o.dirStructure)).bind (fun d => d.folder) = none →
      (resolveOptions options).dirStructure.folder = true) ∧
    ((options.bind (fun o => o.dirStructure)).bind (fun d => d.gallery) = none →
      (resolveOptions options).dirStructure.gallery = true) ∧
    ((options.bind (fun o => o.request)).bind (fun r => r.maxRetries) = none →
      (resolveOptions options).request.maxRetries = 3) ∧
    ((options.bind (fun o => o.request)).bind (fun r => r.maxConcurrent) = none →
      (resolveOptions options).request.maxConcurrent = 10) ∧
    (((options.bind (fun o => o.request)).bind (fun r => r.minTime)).bind (fun m => m.page)
        = none → (resolveOptions options).request.minTime.page = 200) ∧
    (((options.bind (fun o => o.request)).bind (fun r => r.minTime)).bind (fun m => m.image)
        = none → (resolveOptions options).request.minTime.image = 200) := by
  refine ⟨?_, ?_, ?_, ?_, ?_, ?_, ?_, ?_, ?_, ?_, ?_, ?_, ?_⟩ <;>
    (intro h; simp [resolveOptions, h])

/-- Witness for C10: a request with no options at all resolves every
field to its default. -/
theorem create_option_defaults_witness :
    (resolveOptions none).overwrite = false ∧
    (resolveOptions none).seqFilenames = false ∧
    (resolveOptions none).fullFilenames = false ∧
    (resolveOptions none).saveJSON = true ∧
    (resolveOptions none).saveHTML = false ∧
    (resolveOptions none).dirStructure.user = true ∧
    (resolveOptions none).dirStructure.favorites = true ∧
    (resolveOptions none).dirStructure.folder = true ∧
    (resolveOptions none).dirStructure.gallery = true ∧
    (resolveOptions none).request.maxRetries = 3 ∧
    (resolveOptions none).request.maxConcurrent = 10 ∧
    (resolveOptions none).request.minTime.page = 200 ∧
    (resolveOptions none).request.minTime.image = 200 := by
  have h := create_option_defaults none
  exact ⟨h.1 rfl, h.2.1 rfl, h.2.2.1 rfl, h.2.2.2.1 rfl, h.2.2.2.2.1 rfl,
    h.2.2.2.2.2.1 rfl, h.2.2.2.2.2.2.1 rfl, h.2.2.2.2.2.2.2.1 rfl,
    h.2.2.2.2.2.2.2.2.1 rfl, h.2.2.2.2.2.2.2.2.2.1 rfl,
    h.2.2.2.2.2.2.2.2.2.2.1 rfl, h.2.2.2.2.2.2.2.2.2.2.2.1 rfl,
    h.2.2.2.2.2.2.2.2.2.2.2.2 rfl⟩

end IfDl
